import Mathlib

/-!
A shallow embedding of the transaction processor in `src/src/main.rs`.

The Rust program keeps two `HashMap`s:
  * `transactions_map : HashMap<u32, Transaction>` — the accepted ledger;
  * `client_data_map  : HashMap<u16, ClientData>`  — per-client balances;
and five handlers `try_deposit`, `try_withdrawal`, `try_dispute`,
`try_resolve`, `try_chargeback`, dispatched on the string `tx_type` by the
`read_csv` loop.

The maps are modelled as association lists with first-occurrence lookup
(`findA`), first-occurrence in-place update (`updateA`) and cons-insert
(insertion in the source happens only after a `contains_key` check failed,
and `findA` returns the most recent binding, matching `HashMap::insert`
observationally).  `f64` amounts are modelled as exact rationals `ℚ`; the
`u16` counter `total_locks` is a `Nat` bounded by `u16Max`, with the
source's `checked_add(1).unwrap_or(u16::MAX)` and
`checked_sub(1).unwrap_or(0)` rendered as saturating arithmetic.

Each handler returns `HRes`: `ok s` for `Ok(())` with the mutated state,
`err s r` for an `Err(..)` return (carrying the state at the return point
and which error-message branch fired), and `panicked` for a reachable
`Option::unwrap` on `None` (Rust panics and the process dies there).
-/

/-- Mirrors Rust `struct Transaction` (serde row): `tx_id : u32`,
`tx_type : String`, `client_id : u16`, `amount : Option<f64>`,
`is_disputed : bool` (serde default `false`). -/
structure Transaction where
  tx_id : Nat
  tx_type : String
  client_id : Nat
  amount : Option ℚ
  is_disputed : Bool
deriving DecidableEq, Repr

/-- Mirrors Rust `struct ClientData`: `available`, `held`, `total : f64`,
`total_locks : u16`. -/
structure ClientData where
  available : ℚ
  held : ℚ
  total : ℚ
  total_locks : Nat
deriving DecidableEq, Repr

/-- `u16::MAX`, the saturation bound of `total_locks`. -/
def u16Max : Nat := 65535

/-- Association-list lookup, first occurrence wins (models `HashMap::get`). -/
def findA {α : Type} : List (Nat × α) → Nat → Option α
  | [], _ => none
  | (k, v) :: t, k' => if k = k' then some v else findA t k'

/-- Models `HashMap::contains_key`. -/
def containsA {α : Type} (l : List (Nat × α)) (k : Nat) : Bool :=
  (findA l k).isSome

/-- Models `HashMap::insert` at a key the caller has checked absent
(the only way the source inserts); the new binding shadows any older one,
so `findA` agrees with `HashMap` semantics. -/
def insertA {α : Type} (k : Nat) (v : α) (l : List (Nat × α)) :
    List (Nat × α) :=
  (k, v) :: l

/-- In-place mutation through `get_mut`: rewrites the binding `findA`
sees, leaves everything else alone. -/
def updateA {α : Type} (k : Nat) (f : α → α) : List (Nat × α) → List (Nat × α)
  | [] => []
  | (k', v) :: t => if k' = k then (k', f v) :: t else (k', v) :: updateA k f t

/-- The two maps owned by the run. -/
structure Store where
  transactions : List (Nat × Transaction)
  clients : List (Nat × ClientData)
deriving DecidableEq, Repr

/-- Which `Err(..)` return fired, one constructor per error message in the
source: `txIdExists` = "Transaction ID already exists",
`nonPositiveAmount` = "zero or negative balance",
`lockedAccount` = "locked account", `negativeAvailable` = "withdraw with
negative balance", `insufficientBalance` = "insufficient balance",
`noAccount` = "nonexistent account", `alreadyDisputed`, `notDisputed`,
`clientMismatch` = "unrelated user", `noClientForTx` = "no client
associated with transaction", `noSuchTx` = "no transaction to dispute",
`unknownType` = the dispatcher's `_` arm (silent `continue`). -/
inductive RejectReason
  | txIdExists
  | nonPositiveAmount
  | lockedAccount
  | negativeAvailable
  | insufficientBalance
  | noAccount
  | alreadyDisputed
  | notDisputed
  | clientMismatch
  | noClientForTx
  | noSuchTx
  | unknownType
deriving DecidableEq, Repr

/-- Result of one handler call: `Ok(())` with the new state, `Err(..)`
with the state at the early return, or a reached `unwrap()` panic. -/
inductive HRes
  | ok (s : Store)
  | err (s : Store) (r : RejectReason)
  | panicked
deriving DecidableEq, Repr

/-- Rust `try_deposit` (main.rs lines 153–193): duplicate-id check, amount
unwrap and positivity check, then either mutate the (unfrozen) existing
account or create a fresh one, and record the transaction. -/
def try_deposit (s : Store) (t : Transaction) : HRes :=
  if containsA s.transactions t.tx_id then .err s .txIdExists
  else
    match t.amount with
    | none => .panicked
    | some amount =>
      if amount ≤ 0 then .err s .nonPositiveAmount
      else
        match findA s.clients t.client_id with
        | some cd =>
          if cd.total_locks > 0 then .err s .lockedAccount
          else
            .ok { transactions := insertA t.tx_id t s.transactions,
                  clients := updateA t.client_id
                    (fun cd => { cd with
                      available := cd.available + amount,
                      total := cd.total + amount }) s.clients }
        | none =>
          .ok { transactions := insertA t.tx_id t s.transactions,
                clients := insertA t.client_id
                  { available := amount, held := 0, total := amount,
                    total_locks := 0 } s.clients }

/-- Rust `try_withdrawal` (main.rs lines 198–239): duplicate-id check,
amount unwrap and positivity check, account lookup, frozen check,
negative-available check, sufficiency check, then mutate and record. -/
def try_withdrawal (s : Store) (t : Transaction) : HRes :=
  if containsA s.transactions t.tx_id then .err s .txIdExists
  else
    match t.amount with
    | none => .panicked
    | some amount =>
      if amount ≤ 0 then .err s .nonPositiveAmount
      else
        match findA s.clients t.client_id with
        | some cd =>
          if cd.total_locks > 0 then .err s .lockedAccount
          else if cd.available < 0 then .err s .negativeAvailable
          else if cd.available ≥ amount then
            .ok { transactions := insertA t.tx_id t s.transactions,
                  clients := updateA t.client_id
                    (fun cd => { cd with
                      available := cd.available - amount,
                      total := cd.total - amount }) s.clients }
          else .err s .insufficientBalance
        | none => .err s .noAccount

/-- Rust `try_dispute` (main.rs lines 247–285): look up the referenced
transaction, reject if already disputed or owned by another client, look
up the client, unwrap the referenced amount, then set the disputed flag,
move `amount` from available to held, and bump `total_locks` with
`checked_add(1).unwrap_or(u16::MAX)`. -/
def try_dispute (s : Store) (t : Transaction) : HRes :=
  match findA s.transactions t.tx_id with
  | none => .err s .noSuchTx
  | some te =>
    if te.is_disputed then .err s .alreadyDisputed
    else if te.client_id ≠ t.client_id then .err s .clientMismatch
    else
      match findA s.clients t.client_id with
      | none => .err s .noClientForTx
      | some _ =>
        match te.amount with
        | none => .panicked
        | some amount =>
          .ok { transactions := updateA t.tx_id
                  (fun te => { te with is_disputed := true }) s.transactions,
                clients := updateA t.client_id
                  (fun cd => { cd with
                    available := cd.available - amount,
                    held := cd.held + amount,
                    total_locks := min (cd.total_locks + 1) u16Max })
                  s.clients }

/-- Rust `try_resolve` (main.rs lines 291–331): like `try_dispute` but
requires the referenced transaction to be disputed, clears the flag, moves
`amount` back from held to available, and decrements `total_locks` with
`checked_sub(1).unwrap_or(0)`. -/
def try_resolve (s : Store) (t : Transaction) : HRes :=
  match findA s.transactions t.tx_id with
  | none => .err s .noSuchTx
  | some te =>
    if !te.is_disputed then .err s .notDisputed
    else if te.client_id ≠ t.client_id then .err s .clientMismatch
    else
      match findA s.clients t.client_id with
      | none => .err s .noClientForTx
      | some _ =>
        match te.amount with
        | none => .panicked
        | some amount =>
          .ok { transactions := updateA t.tx_id
                  (fun te => { te with is_disputed := false }) s.transactions,
                clients := updateA t.client_id
                  (fun cd => { cd with
                    available := cd.available + amount,
                    held := cd.held - amount,
                    total_locks := cd.total_locks - 1 })
                  s.clients }

/-- Rust `try_chargeback` (main.rs lines 338–373): requires the referenced
transaction to be disputed and owned by the same client, then subtracts
`amount` from held and total.  It does not clear `is_disputed`, does not
touch `total_locks`, and does not modify the ledger. -/
def try_chargeback (s : Store) (t : Transaction) : HRes :=
  match findA s.transactions t.tx_id with
  | none => .err s .noSuchTx
  | some te =>
    if !te.is_disputed then .err s .notDisputed
    else if te.client_id ≠ t.client_id then .err s .clientMismatch
    else
      match findA s.clients t.client_id with
      | none => .err s .noClientForTx
      | some _ =>
        match te.amount with
        | none => .panicked
        | some amount =>
          .ok { transactions := s.transactions,
                clients := updateA t.client_id
                  (fun cd => { cd with
                    held := cd.held - amount,
                    total := cd.total - amount })
                  s.clients }

/-- The dispatcher in `read_csv` (main.rs lines 61–102): match on the
`tx_type` string, unknown kinds fall through to `continue` with no
effect. -/
def processTx (s : Store) (t : Transaction) : HRes :=
  match t.tx_type with
  | "deposit" => try_deposit s t
  | "withdrawal" => try_withdrawal s t
  | "dispute" => try_dispute s t
  | "resolve" => try_resolve s t
  | "chargeback" => try_chargeback s t
  | _ => .err s .unknownType

/-- The `read_csv` ingest loop: feed each record in order; `Err` results
are swallowed (`continue`), a panic aborts the whole run (`none`). -/
def processAll (s : Store) : List Transaction → Option Store
  | [] => some s
  | t :: ts =>
    match processTx s t with
    | .ok s' => processAll s' ts
    | .err s' _ => processAll s' ts
    | .panicked => none

/-- Per-account balance-sheet equation of the spec. -/
def AccountsInv (s : Store) : Prop :=
  ∀ c cd, findA s.clients c = some cd → cd.total = cd.available + cd.held

/-- Upper bound `total_locks ≤ u16::MAX` for every account. -/
def LocksInv (s : Store) : Prop :=
  ∀ c cd, findA s.clients c = some cd → cd.total_locks ≤ u16Max

/-- Well-formedness of one ledger entry relative to the client map: it was
accepted by the deposit or withdrawal handler, carries a present positive
amount, and its client has an account. -/
def TxOk (cl : List (Nat × ClientData)) (te : Transaction) : Prop :=
  (te.tx_type = "deposit" ∨ te.tx_type = "withdrawal") ∧
  ∃ a, te.amount = some a ∧ 0 < a ∧ (findA cl te.client_id).isSome

/-- Every entry the ledger's `findA` can see is well-formed. -/
def LedgerInv (s : Store) : Prop :=
  ∀ k te, findA s.transactions k = some te → TxOk s.clients te

/-! ### Association-list lemmas -/

/-- Lookup after insert: the new binding shadows. -/
theorem findA_insertA {α : Type} (k : Nat) (v : α) (l : List (Nat × α)) (k' : Nat) :
    findA (insertA k v l) k' = if k = k' then some v else findA l k' := rfl

/-- Lookup after in-place update. -/
theorem findA_updateA {α : Type} (k : Nat) (f : α → α) (l : List (Nat × α)) (k' : Nat) :
    findA (updateA k f l) k' = if k = k' then (findA l k').map f else findA l k' := by
  induction l with
  | nil => simp [updateA, findA]
  | cons p tl ih =>
    obtain ⟨pk, pv⟩ := p
    by_cases h1 : pk = k
    · subst h1
      by_cases h2 : pk = k'
      · subst h2; simp [updateA, findA]
      · simp [updateA, findA, h2]
    · by_cases h2 : pk = k'
      · subst h2
        have hne : k ≠ pk := fun hh => h1 hh.symm
        simp [updateA, findA, h1, hne]
      · simp [updateA, findA, h1, h2, ih]

/-- `updateA` adds no keys. -/
theorem findA_updateA_none {α : Type} {l : List (Nat × α)} {k c : Nat} {f : α → α}
    (h : findA l c = none) : findA (updateA k f l) c = none := by
  rw [findA_updateA]; split <;> simp [h]

/-- `updateA` removes no keys. -/
theorem isSome_updateA {α : Type} {l : List (Nat × α)} {c : Nat} (k : Nat) (f : α → α)
    (h : (findA l c).isSome) : (findA (updateA k f l) c).isSome := by
  rw [findA_updateA]; split <;> simp_all

/-- `insertA` removes no keys. -/
theorem isSome_insertA {α : Type} {l : List (Nat × α)} {c : Nat} (k : Nat) (v : α)
    (h : (findA l c).isSome) : (findA (insertA k v l) c).isSome := by
  rw [findA_insertA]; split <;> simp_all

/-- A pointwise property of all bindings survives an update whose function
preserves it. -/
theorem forall_find_updateA {α : Type} {P : α → Prop} {l : List (Nat × α)}
    {k : Nat} {f : α → α}
    (hl : ∀ c v, findA l c = some v → P v)
    (hf : ∀ v, P v → P (f v)) :
    ∀ c v, findA (updateA k f l) c = some v → P v := by
  intro c v h
  rw [findA_updateA] at h
  split at h
  · obtain ⟨w, hw, hfw⟩ := Option.map_eq_some'.mp h
    exact hfw ▸ hf w (hl c w hw)
  · exact hl c v h

/-- A pointwise property of all bindings survives inserting a binding that
has it. -/
theorem forall_find_insertA {α : Type} {P : α → Prop} {l : List (Nat × α)}
    {k : Nat} {v₀ : α}
    (hl : ∀ c v, findA l c = some v → P v) (h0 : P v₀) :
    ∀ c v, findA (insertA k v₀ l) c = some v → P v := by
  intro c v h
  rw [findA_insertA] at h
  split at h
  · cases h; exact h0
  · exact hl c v h

/-! ### Error returns leave the state untouched

In the source every `return Err(..)` happens before any mutation of either
map; in the embedding each `err` therefore carries the input store. -/

theorem try_deposit_err_eq (s : Store) (t : Transaction) (s' : Store) (r : RejectReason)
    (h : try_deposit s t = .err s' r) : s' = s := by
  unfold try_deposit at h
  repeat' split at h
  all_goals first
    | (injection h with h1 h2; exact h1.symm)
    | exact HRes.noConfusion h

theorem try_withdrawal_err_eq (s : Store) (t : Transaction) (s' : Store) (r : RejectReason)
    (h : try_withdrawal s t = .err s' r) : s' = s := by
  unfold try_withdrawal at h
  repeat' split at h
  all_goals first
    | (injection h with h1 h2; exact h1.symm)
    | exact HRes.noConfusion h

theorem try_dispute_err_eq (s : Store) (t : Transaction) (s' : Store) (r : RejectReason)
    (h : try_dispute s t = .err s' r) : s' = s := by
  unfold try_dispute at h
  repeat' split at h
  all_goals first
    | (injection h with h1 h2; exact h1.symm)
    | exact HRes.noConfusion h

theorem try_resolve_err_eq (s : Store) (t : Transaction) (s' : Store) (r : RejectReason)
    (h : try_resolve s t = .err s' r) : s' = s := by
  unfold try_resolve at h
  repeat' split at h
  all_goals first
    | (injection h with h1 h2; exact h1.symm)
    | exact HRes.noConfusion h

theorem try_chargeback_err_eq (s : Store) (t : Transaction) (s' : Store) (r : RejectReason)
    (h : try_chargeback s t = .err s' r) : s' = s := by
  unfold try_chargeback at h
  repeat' split at h
  all_goals first
    | (injection h with h1 h2; exact h1.symm)
    | exact HRes.noConfusion h

theorem processTx_err_eq (s : Store) (t : Transaction) (s' : Store) (r : RejectReason)
    (h : processTx s t = .err s' r) : s' = s := by
  unfold processTx at h
  split at h
  · exact try_deposit_err_eq _ _ _ _ h
  · exact try_withdrawal_err_eq _ _ _ _ h
  · exact try_dispute_err_eq _ _ _ _ h
  · exact try_resolve_err_eq _ _ _ _ h
  · exact try_chargeback_err_eq _ _ _ _ h
  · injection h with h1 h2; exact h1.symm

/-! ### Claims -/

/-- Claim C5: whenever any handler (Deposit, Withdrawal, Dispute, Resolve,
Chargeback — and the dispatcher's unknown-kind arm) rejects a transaction,
the store it leaves behind — the whole ledger, every disputed flag, and
every account balance — is exactly the store it was given. -/
theorem rejected_transaction_preserves_state (s : Store) (t : Transaction)
    (s' : Store) (r : RejectReason) (h : processTx s t = .err s' r) : s' = s :=
  processTx_err_eq s t s' r h

/-- Witness for `rejected_transaction_preserves_state`: a withdrawal from a
nonexistent account is rejected with the store returned unchanged. -/
theorem rejected_transaction_preserves_state_witness :
    processTx ⟨[], []⟩ ⟨1, "withdrawal", 1, some 5, false⟩ =
      HRes.err ⟨[], []⟩ RejectReason.noAccount ∧
    (⟨[], []⟩ : Store) = ⟨[], []⟩ :=
  ⟨by decide, rejected_transaction_preserves_state ⟨[], []⟩
    ⟨1, "withdrawal", 1, some 5, false⟩ ⟨[], []⟩ RejectReason.noAccount (by decide)⟩

/-- Claim C6: a Deposit or Withdrawal whose transaction id is already in
the ledger is rejected at the duplicate-id guard — whatever kind the
earlier accepted transaction was — and the store (so in particular the
existing ledger entry) is returned unchanged rather than overwritten. -/
theorem duplicate_tx_id_rejected (s : Store) (t : Transaction)
    (h : containsA s.transactions t.tx_id = true) :
    try_deposit s t = .err s .txIdExists ∧
    try_withdrawal s t = .err s .txIdExists := by
  constructor
  · unfold try_deposit; simp [h]
  · unfold try_withdrawal; simp [h]

/-- Witness for `duplicate_tx_id_rejected`: a deposit with id 7 already
recorded (as a withdrawal there) is rejected, as is a withdrawal. -/
theorem duplicate_tx_id_rejected_witness :
    try_deposit
        ⟨[(7, ⟨7, "withdrawal", 1, some 2, false⟩)], [(1, ⟨3, 0, 3, 0⟩)]⟩
        ⟨7, "deposit", 1, some 5, false⟩ =
      HRes.err ⟨[(7, ⟨7, "withdrawal", 1, some 2, false⟩)], [(1, ⟨3, 0, 3, 0⟩)]⟩
        RejectReason.txIdExists ∧
    try_withdrawal
        ⟨[(7, ⟨7, "withdrawal", 1, some 2, false⟩)], [(1, ⟨3, 0, 3, 0⟩)]⟩
        ⟨7, "deposit", 1, some 5, false⟩ =
      HRes.err ⟨[(7, ⟨7, "withdrawal", 1, some 2, false⟩)], [(1, ⟨3, 0, 3, 0⟩)]⟩
        RejectReason.txIdExists :=
  duplicate_tx_id_rejected
    ⟨[(7, ⟨7, "withdrawal", 1, some 2, false⟩)], [(1, ⟨3, 0, 3, 0⟩)]⟩
    ⟨7, "deposit", 1, some 5, false⟩ (by decide)

/-- Claim C2: processing any transaction — successfully, or with a silent
rejection — preserves `total = available + held` for every account, in the
embedding's exact rational arithmetic. -/
theorem total_is_available_plus_held (s : Store) (t : Transaction) (s' : Store)
    (hinv : AccountsInv s)
    (h : processTx s t = .ok s' ∨ ∃ r, processTx s t = .err s' r) :
    AccountsInv s' := by
  rcases h with h | ⟨r, h⟩
  · unfold processTx try_deposit try_withdrawal try_dispute try_resolve try_chargeback at h
    repeat' split at h
    all_goals first
      | exact HRes.noConfusion h
      | (injection h with h'
         subst h'
         intro c cd hcd
         first
           | exact forall_find_updateA hinv
               (fun v hv => by dsimp only; rw [hv]; ring) c cd hcd
           | exact forall_find_insertA hinv (by dsimp only; ring) c cd hcd)
  · rw [processTx_err_eq s t s' r h]; exact hinv

/-- Witness for `total_is_available_plus_held`: a first deposit of 5 into
an empty store yields an account satisfying the equation. -/
theorem total_is_available_plus_held_witness :
    AccountsInv ⟨[(1, ⟨1, "deposit", 1, some 5, false⟩)], [(1, ⟨5, 0, 5, 0⟩)]⟩ :=
  total_is_available_plus_held ⟨[], []⟩ ⟨1, "deposit", 1, some 5, false⟩
    ⟨[(1, ⟨1, "deposit", 1, some 5, false⟩)], [(1, ⟨5, 0, 5, 0⟩)]⟩
    (fun _ _ h => nomatch h) (Or.inl (by decide))

/-- Claim C9: `total_locks` — a `u16`, so never below 0 — never exceeds
`u16::MAX`: a successful Dispute sets it to `min (old + 1) u16Max`
(the source's `checked_add(1).unwrap_or(u16::MAX)`, saturating instead of
wrapping), a successful Resolve sets it to `old - 1` saturating at 0
(`checked_sub(1).unwrap_or(0)`; truncated subtraction here), and every
processed transaction preserves the `≤ u16Max` bound. -/
theorem lock_count_saturates :
    (∀ s t s₁ cd, try_dispute s t = .ok s₁ →
      findA s.clients t.client_id = some cd →
      ∃ cd', findA s₁.clients t.client_id = some cd' ∧
        cd'.total_locks = min (cd.total_locks + 1) u16Max) ∧
    (∀ s t s₁ cd, try_resolve s t = .ok s₁ →
      findA s.clients t.client_id = some cd →
      ∃ cd', findA s₁.clients t.client_id = some cd' ∧
        cd'.total_locks = cd.total_locks - 1) ∧
    (∀ s t s', LocksInv s →
      (processTx s t = .ok s' ∨ ∃ r, processTx s t = .err s' r) → LocksInv s') := by
  refine ⟨?_, ?_, ?_⟩
  · intro s t s₁ cd h hcd
    unfold try_dispute at h
    repeat' split at h
    all_goals first
      | exact HRes.noConfusion h
      | (injection h with h'
         subst h'
         exact ⟨_, by rw [findA_updateA, if_pos rfl, hcd]; rfl, rfl⟩)
  · intro s t s₁ cd h hcd
    unfold try_resolve at h
    repeat' split at h
    all_goals first
      | exact HRes.noConfusion h
      | (injection h with h'
         subst h'
         exact ⟨_, by rw [findA_updateA, if_pos rfl, hcd]; rfl, rfl⟩)
  · intro s t s' hinv h
    rcases h with h | ⟨r, h⟩
    · unfold processTx try_deposit try_withdrawal try_dispute try_resolve try_chargeback at h
      repeat' split at h
      all_goals first
        | exact HRes.noConfusion h
        | (injection h with h'
           subst h'
           intro c cd hcd
           first
             | exact forall_find_updateA hinv
                 (fun v hv => by dsimp only [u16Max] at *; omega) c cd hcd
             | exact forall_find_insertA hinv (by norm_num [u16Max]) c cd hcd)
    · rw [processTx_err_eq s t s' r h]; exact hinv

/-- Witness for `lock_count_saturates`: disputing a recorded deposit of 5
raises the client's `total_locks` from 0 to `min (0 + 1) u16Max = 1`. -/
theorem lock_count_saturates_witness :
    ∃ cd', findA (⟨[(1, ⟨1, "deposit", 1, some 5, true⟩)],
        [(1, ⟨0, 5, 5, 1⟩)]⟩ : Store).clients 1 = some cd' ∧
      cd'.total_locks = min (0 + 1) u16Max :=
  lock_count_saturates.1
    ⟨[(1, ⟨1, "deposit", 1, some 5, false⟩)], [(1, ⟨5, 0, 5, 0⟩)]⟩
    ⟨1, "dispute", 1, none, false⟩
    ⟨[(1, ⟨1, "deposit", 1, some 5, true⟩)], [(1, ⟨0, 5, 5, 1⟩)]⟩
    ⟨5, 0, 5, 0⟩ (by norm_num [try_dispute, findA, updateA, u16Max]) (by decide)

/-- Claim C8: a Deposit or Withdrawal with a fresh transaction id and an
absent amount reaches the unchecked `transaction.amount.unwrap()` and
panics instead of being rejected; with the amount present, that unwrap's
error branch is unreachable (the handlers never panic). -/
theorem missing_amount_panics :
    (∀ s t, t.amount = none → containsA s.transactions t.tx_id = false →
      try_deposit s t = HRes.panicked ∧ try_withdrawal s t = HRes.panicked) ∧
    (∀ s t a, t.amount = some a →
      try_deposit s t ≠ HRes.panicked ∧ try_withdrawal s t ≠ HRes.panicked) := by
  constructor
  · intro s t ha hfresh
    constructor
    · simp [try_deposit, ha, hfresh]
    · simp [try_withdrawal, ha, hfresh]
  · intro s t a ha
    constructor
    · intro hc
      unfold try_deposit at hc
      simp only [ha] at hc
      repeat' split at hc
      all_goals exact HRes.noConfusion hc
    · intro hc
      unfold try_withdrawal at hc
      simp only [ha] at hc
      repeat' split at hc
      all_goals exact HRes.noConfusion hc

/-- Witness for `missing_amount_panics`: an amount-less deposit row with
fresh id 1 panics both handlers on the empty store. -/
theorem missing_amount_panics_witness :
    try_deposit ⟨[], []⟩ ⟨1, "deposit", 1, none, false⟩ = HRes.panicked ∧
    try_withdrawal ⟨[], []⟩ ⟨1, "deposit", 1, none, false⟩ = HRes.panicked :=
  missing_amount_panics.1 ⟨[], []⟩ ⟨1, "deposit", 1, none, false⟩ rfl (by decide)

/-- Claim C3: once a Chargeback has succeeded, the referenced transaction
is still marked disputed and nothing guards against repeating it: a second
Chargeback against the same transaction succeeds as well and subtracts the
amount from `held` and `total` a second time. -/
theorem second_chargeback_double_subtracts (s : Store) (t : Transaction) (s₁ : Store)
    (te : Transaction) (cd : ClientData) (a : ℚ)
    (hte : findA s.transactions t.tx_id = some te)
    (hcd : findA s.clients t.client_id = some cd)
    (ha : te.amount = some a)
    (h1 : try_chargeback s t = HRes.ok s₁) :
    findA s₁.clients t.client_id =
      some { cd with held := cd.held - a, total := cd.total - a } ∧
    ∃ s₂, try_chargeback s₁ t = HRes.ok s₂ ∧
      findA s₂.clients t.client_id =
        some { cd with held := cd.held - a - a, total := cd.total - a - a } := by
  have hd : te.is_disputed = true := by
    by_contra hx
    rw [Bool.not_eq_true] at hx
    simp [try_chargeback, hte, hx] at h1
  have hcm : te.client_id = t.client_id := by
    by_contra hx
    simp [try_chargeback, hte, hd, hx] at h1
  simp only [try_chargeback, hte, hd, hcm, hcd, ha, Bool.not_true, Bool.false_eq_true,
    if_false, ne_eq, not_true_eq_false, ite_false, HRes.ok.injEq] at h1
  subst h1
  constructor
  · rw [findA_updateA, if_pos rfl, hcd]; rfl
  · refine ⟨⟨s.transactions, updateA t.client_id
        (fun cd => { cd with held := cd.held - a, total := cd.total - a })
        (updateA t.client_id
          (fun cd => { cd with held := cd.held - a, total := cd.total - a })
          s.clients)⟩, ?_, ?_⟩
    · simp only [try_chargeback, hte, hd, hcm, ha, Bool.not_true, Bool.false_eq_true,
        if_false, ne_eq, not_true_eq_false, ite_false]
      rw [findA_updateA, if_pos rfl, hcd, Option.map_some']
    · rw [findA_updateA, if_pos rfl, findA_updateA, if_pos rfl, hcd,
        Option.map_some', Option.map_some']

/-- Witness for `second_chargeback_double_subtracts`: charging back a
disputed deposit of 5 a first time leaves held 0, and a second chargeback
of the same transaction succeeds and drives held and total to −5. -/
theorem second_chargeback_double_subtracts_witness :
    findA (⟨[(1, ⟨1, "deposit", 1, some 5, true⟩)],
        [(1, ⟨0, 0, 0, 1⟩)]⟩ : Store).clients 1 =
      some { (⟨0, 5, 5, 1⟩ : ClientData) with
        held := (5 : ℚ) - 5, total := (5 : ℚ) - 5 } ∧
    ∃ s₂, try_chargeback
        ⟨[(1, ⟨1, "deposit", 1, some 5, true⟩)], [(1, ⟨0, 0, 0, 1⟩)]⟩
        ⟨1, "chargeback", 1, none, false⟩ = HRes.ok s₂ ∧
      findA s₂.clients 1 =
        some { (⟨0, 5, 5, 1⟩ : ClientData) with
          held := (5 : ℚ) - 5 - 5, total := (5 : ℚ) - 5 - 5 } :=
  second_chargeback_double_subtracts
    ⟨[(1, ⟨1, "deposit", 1, some 5, true⟩)], [(1, ⟨0, 5, 5, 1⟩)]⟩
    ⟨1, "chargeback", 1, none, false⟩
    ⟨[(1, ⟨1, "deposit", 1, some 5, true⟩)], [(1, ⟨0, 0, 0, 1⟩)]⟩
    ⟨1, "deposit", 1, some 5, true⟩ ⟨0, 5, 5, 1⟩ 5
    (by decide) (by decide) (by decide)
    (by norm_num [try_chargeback, findA, updateA])

/-- Claim C7: an account comes into being exactly when a Deposit for a
previously unseen client succeeds — the only creation path.  Part 1: if
processing makes an absent client appear, the transaction was a deposit
for that client.  Part 2: a successful first deposit creates the zeroed
account holding the amount.  Part 3: a Withdrawal, Dispute, Resolve, or
Chargeback (or unknown kind) for a client with no account never succeeds,
and any rejection leaves the store untouched. -/
theorem account_creation_only_by_deposit :
    (∀ s t s' c, processTx s t = HRes.ok s' →
      findA s.clients c = none → (∃ cd, findA s'.clients c = some cd) →
      t.tx_type = "deposit" ∧ t.client_id = c) ∧
    (∀ s t s', t.tx_type = "deposit" → findA s.clients t.client_id = none →
      processTx s t = HRes.ok s' →
      ∃ a, t.amount = some a ∧
        findA s'.clients t.client_id = some ⟨a, 0, a, 0⟩) ∧
    (∀ s t, t.tx_type ≠ "deposit" → findA s.clients t.client_id = none →
      (∀ s', processTx s t ≠ HRes.ok s') ∧
      (∀ s' r, processTx s t = HRes.err s' r → s' = s)) := by
  refine ⟨?_, ?_, ?_⟩
  · intro s t s' c h hnone hcd
    obtain ⟨cd, hcd⟩ := hcd
    unfold processTx try_deposit try_withdrawal try_dispute try_resolve try_chargeback at h
    repeat' split at h
    all_goals first
      | exact HRes.noConfusion h
      | (injection h with h'
         subst h'
         first
           | (rw [findA_updateA_none hnone] at hcd; exact Option.noConfusion hcd)
           | (rw [findA_insertA] at hcd
              split at hcd
              · exact ⟨by assumption, by assumption⟩
              · rw [hnone] at hcd; exact Option.noConfusion hcd))
  · intro s t s' htt hnone h
    simp only [processTx, htt] at h
    unfold try_deposit at h
    by_cases hct : containsA s.transactions t.tx_id
    · rw [if_pos hct] at h; exact HRes.noConfusion h
    · rw [if_neg hct] at h
      cases ha : t.amount with
      | none => simp only [ha] at h; exact HRes.noConfusion h
      | some a =>
        simp only [ha] at h
        by_cases hle : a ≤ 0
        · rw [if_pos hle] at h; exact HRes.noConfusion h
        · rw [if_neg hle] at h
          simp only [hnone] at h
          injection h with h'
          subst h'
          exact ⟨a, rfl, by rw [findA_insertA, if_pos rfl]⟩
  · intro s t htt hnone
    constructor
    · intro s' h
      unfold processTx try_deposit try_withdrawal try_dispute try_resolve try_chargeback at h
      repeat' split at h
      all_goals first
        | exact HRes.noConfusion h
        | simp_all
    · intro s' r h
      exact processTx_err_eq s t s' r h

/-- `TxOk` only looks the client up, so any key-preserving change to the
client map keeps it. -/
theorem txOk_mono {cl cl' : List (Nat × ClientData)} {te : Transaction}
    (hmono : ∀ c, (findA cl c).isSome → (findA cl' c).isSome)
    (h : TxOk cl te) : TxOk cl' te :=
  ⟨h.1, h.2.imp fun _ hh => ⟨hh.1, hh.2.1, hmono _ hh.2.2⟩⟩

/-- Flipping the dispute flag does not affect `TxOk`. -/
theorem txOk_flag (cl : List (Nat × ClientData)) (te : Transaction) (b : Bool)
    (h : TxOk cl te) : TxOk cl { te with is_disputed := b } :=
  ⟨h.1, h.2⟩

theorem try_deposit_preserves_ledgerInv (s : Store) (t : Transaction) (s' : Store)
    (htt : t.tx_type = "deposit" ∨ t.tx_type = "withdrawal")
    (hinv : LedgerInv s) (h : try_deposit s t = HRes.ok s') : LedgerInv s' := by
  unfold try_deposit at h
  by_cases hct : containsA s.transactions t.tx_id
  · rw [if_pos hct] at h; exact HRes.noConfusion h
  · rw [if_neg hct] at h
    cases ha : t.amount with
    | none => simp only [ha] at h; exact HRes.noConfusion h
    | some a =>
      simp only [ha] at h
      by_cases hle : a ≤ 0
      · rw [if_pos hle] at h; exact HRes.noConfusion h
      · rw [if_neg hle] at h
        have hpos : 0 < a := lt_of_not_le hle
        cases hcd : findA s.clients t.client_id with
        | some cd =>
          simp only [hcd] at h
          by_cases hlk : cd.total_locks > 0
          · rw [if_pos hlk] at h; exact HRes.noConfusion h
          · rw [if_neg hlk] at h
            injection h with h'
            subst h'
            intro k te hk
            rw [findA_insertA] at hk
            split at hk
            · cases hk
              exact ⟨htt, a, ha, hpos,
                by rw [findA_updateA, if_pos rfl, hcd]; simp⟩
            · exact txOk_mono (fun c hs => isSome_updateA _ _ hs) (hinv k te hk)
        | none =>
          simp only [hcd] at h
          injection h with h'
          subst h'
          intro k te hk
          rw [findA_insertA] at hk
          split at hk
          · cases hk
            exact ⟨htt, a, ha, hpos, by rw [findA_insertA, if_pos rfl]; simp⟩
          · exact txOk_mono (fun c hs => isSome_insertA _ _ hs) (hinv k te hk)

theorem try_withdrawal_preserves_ledgerInv (s : Store) (t : Transaction) (s' : Store)
    (htt : t.tx_type = "deposit" ∨ t.tx_type = "withdrawal")
    (hinv : LedgerInv s) (h : try_withdrawal s t = HRes.ok s') : LedgerInv s' := by
  unfold try_withdrawal at h
  by_cases hct : containsA s.transactions t.tx_id
  · rw [if_pos hct] at h; exact HRes.noConfusion h
  · rw [if_neg hct] at h
    cases ha : t.amount with
    | none => simp only [ha] at h; exact HRes.noConfusion h
    | some a =>
      simp only [ha] at h
      by_cases hle : a ≤ 0
      · rw [if_pos hle] at h; exact HRes.noConfusion h
      · rw [if_neg hle] at h
        have hpos : 0 < a := lt_of_not_le hle
        cases hcd : findA s.clients t.client_id with
        | some cd =>
          simp only [hcd] at h
          by_cases hlk : cd.total_locks > 0
          · rw [if_pos hlk] at h; exact HRes.noConfusion h
          · rw [if_neg hlk] at h
            by_cases hneg : cd.available < 0
            · rw [if_pos hneg] at h; exact HRes.noConfusion h
            · rw [if_neg hneg] at h
              by_cases hge : cd.available ≥ a
              · rw [if_pos hge] at h
                injection h with h'
                subst h'
                intro k te hk
                rw [findA_insertA] at hk
                split at hk
                · cases hk
                  exact ⟨htt, a, ha, hpos,
                    by rw [findA_updateA, if_pos rfl, hcd]; simp⟩
                · exact txOk_mono (fun c hs => isSome_updateA _ _ hs) (hinv k te hk)
              · rw [if_neg hge] at h; exact HRes.noConfusion h
        | none => simp only [hcd] at h; exact HRes.noConfusion h

theorem try_dispute_preserves_ledgerInv (s : Store) (t : Transaction) (s' : Store)
    (hinv : LedgerInv s) (h : try_dispute s t = HRes.ok s') : LedgerInv s' := by
  unfold try_dispute at h
  cases hte : findA s.transactions t.tx_id with
  | none => simp only [hte] at h; exact HRes.noConfusion h
  | some te =>
    simp only [hte] at h
    by_cases hd : te.is_disputed
    · simp [hd] at h
    · rw [Bool.not_eq_true] at hd
      by_cases hcm : te.client_id = t.client_id
      · cases hcl : findA s.clients t.client_id with
        | none => simp [hd, hcm, hcl] at h
        | some cd =>
          cases ha : te.amount with
          | none => simp [hd, hcm, hcl, ha] at h
          | some a =>
            simp only [hd, Bool.false_eq_true, if_false, hcm, ne_eq,
              not_true_eq_false, ite_false, hcl, ha, HRes.ok.injEq] at h
            subst h
            intro k te' hk
            rw [findA_updateA] at hk
            split at hk
            · obtain ⟨w, hw, hfw⟩ := Option.map_eq_some'.mp hk
              rw [← hfw]
              exact txOk_mono (fun c hs => isSome_updateA _ _ hs)
                (txOk_flag _ w true (hinv k w hw))
            · exact txOk_mono (fun c hs => isSome_updateA _ _ hs) (hinv k te' hk)
      · simp [hd, hcm] at h

theorem try_resolve_preserves_ledgerInv (s : Store) (t : Transaction) (s' : Store)
    (hinv : LedgerInv s) (h : try_resolve s t = HRes.ok s') : LedgerInv s' := by
  unfold try_resolve at h
  cases hte : findA s.transactions t.tx_id with
  | none => simp only [hte] at h; exact HRes.noConfusion h
  | some te =>
    simp only [hte] at h
    by_cases hd : te.is_disputed
    · by_cases hcm : te.client_id = t.client_id
      · cases hcl : findA s.clients t.client_id with
        | none => simp [hd, hcm, hcl] at h
        | some cd =>
          cases ha : te.amount with
          | none => simp [hd, hcm, hcl, ha] at h
          | some a =>
            simp only [hd, Bool.not_true, Bool.false_eq_true, if_false, hcm, ne_eq,
              not_true_eq_false, ite_false, hcl, ha, HRes.ok.injEq] at h
            subst h
            intro k te' hk
            rw [findA_updateA] at hk
            split at hk
            · obtain ⟨w, hw, hfw⟩ := Option.map_eq_some'.mp hk
              rw [← hfw]
              exact txOk_mono (fun c hs => isSome_updateA _ _ hs)
                (txOk_flag _ w false (hinv k w hw))
            · exact txOk_mono (fun c hs => isSome_updateA _ _ hs) (hinv k te' hk)
      · simp [hd, hcm] at h
    · simp [hd] at h

theorem try_chargeback_preserves_ledgerInv (s : Store) (t : Transaction) (s' : Store)
    (hinv : LedgerInv s) (h : try_chargeback s t = HRes.ok s') : LedgerInv s' := by
  unfold try_chargeback at h
  cases hte : findA s.transactions t.tx_id with
  | none => simp only [hte] at h; exact HRes.noConfusion h
  | some te =>
    simp only [hte] at h
    by_cases hd : te.is_disputed
    · by_cases hcm : te.client_id = t.client_id
      · cases hcl : findA s.clients t.client_id with
        | none => simp [hd, hcm, hcl] at h
        | some cd =>
          cases ha : te.amount with
          | none => simp [hd, hcm, hcl, ha] at h
          | some a =>
            simp only [hd, Bool.not_true, Bool.false_eq_true, if_false, hcm, ne_eq,
              not_true_eq_false, ite_false, hcl, ha, HRes.ok.injEq] at h
            subst h
            intro k te' hk
            exact txOk_mono (fun c hs => isSome_updateA _ _ hs) (hinv k te' hk)
      · simp [hd, hcm] at h
    · simp [hd] at h

theorem try_dispute_no_missing_client (s : Store) (t : Transaction) (hinv : LedgerInv s) :
    try_dispute s t ≠ HRes.panicked ∧
    ∀ s', try_dispute s t ≠ HRes.err s' RejectReason.noClientForTx := by
  cases hte : findA s.transactions t.tx_id with
  | none => exact ⟨by simp [try_dispute, hte], fun s' => by simp [try_dispute, hte]⟩
  | some te =>
    obtain ⟨_, a, ha, _, hcl⟩ := hinv t.tx_id te hte
    by_cases hd : te.is_disputed
    · exact ⟨by simp [try_dispute, hte, hd], fun s' => by simp [try_dispute, hte, hd]⟩
    · rw [Bool.not_eq_true] at hd
      by_cases hcm : te.client_id = t.client_id
      · rw [hcm] at hcl
        obtain ⟨cd, hcd⟩ := Option.isSome_iff_exists.mp hcl
        exact ⟨by simp [try_dispute, hte, hd, hcm, hcd, ha],
          fun s' => by simp [try_dispute, hte, hd, hcm, hcd, ha]⟩
      · exact ⟨by simp [try_dispute, hte, hd, hcm],
          fun s' => by simp [try_dispute, hte, hd, hcm]⟩

theorem try_resolve_no_missing_client (s : Store) (t : Transaction) (hinv : LedgerInv s) :
    try_resolve s t ≠ HRes.panicked ∧
    ∀ s', try_resolve s t ≠ HRes.err s' RejectReason.noClientForTx := by
  cases hte : findA s.transactions t.tx_id with
  | none => exact ⟨by simp [try_resolve, hte], fun s' => by simp [try_resolve, hte]⟩
  | some te =>
    obtain ⟨_, a, ha, _, hcl⟩ := hinv t.tx_id te hte
    by_cases hd : te.is_disputed
    · by_cases hcm : te.client_id = t.client_id
      · rw [hcm] at hcl
        obtain ⟨cd, hcd⟩ := Option.isSome_iff_exists.mp hcl
        exact ⟨by simp [try_resolve, hte, hd, hcm, hcd, ha],
          fun s' => by simp [try_resolve, hte, hd, hcm, hcd, ha]⟩
      · exact ⟨by simp [try_resolve, hte, hd, hcm],
          fun s' => by simp [try_resolve, hte, hd, hcm]⟩
    · exact ⟨by simp [try_resolve, hte, hd], fun s' => by simp [try_resolve, hte, hd]⟩

theorem try_chargeback_no_missing_client (s : Store) (t : Transaction) (hinv : LedgerInv s) :
    try_chargeback s t ≠ HRes.panicked ∧
    ∀ s', try_chargeback s t ≠ HRes.err s' RejectReason.noClientForTx := by
  cases hte : findA s.transactions t.tx_id with
  | none => exact ⟨by simp [try_chargeback, hte], fun s' => by simp [try_chargeback, hte]⟩
  | some te =>
    obtain ⟨_, a, ha, _, hcl⟩ := hinv t.tx_id te hte
    by_cases hd : te.is_disputed
    · by_cases hcm : te.client_id = t.client_id
      · rw [hcm] at hcl
        obtain ⟨cd, hcd⟩ := Option.isSome_iff_exists.mp hcl
        exact ⟨by simp [try_chargeback, hte, hd, hcm, hcd, ha],
          fun s' => by simp [try_chargeback, hte, hd, hcm, hcd, ha]⟩
      · exact ⟨by simp [try_chargeback, hte, hd, hcm],
          fun s' => by simp [try_chargeback, hte, hd, hcm]⟩
    · exact ⟨by simp [try_chargeback, hte, hd], fun s' => by simp [try_chargeback, hte, hd]⟩

/-- Claim C10: processing preserves the ledger invariant — every recorded
transaction was accepted by the deposit or withdrawal handler, carries a
present amount strictly greater than 0, and its client has an account —
and under that invariant the Dispute, Resolve, and Chargeback handlers
never reach the `te.amount.unwrap()` panic, and their "no client
associated with transaction" error branch is unreachable. -/
theorem ledger_entries_wellformed :
    (∀ s t s', LedgerInv s →
      (processTx s t = HRes.ok s' ∨ ∃ r, processTx s t = HRes.err s' r) →
      LedgerInv s') ∧
    (∀ s t, LedgerInv s →
      (try_dispute s t ≠ HRes.panicked ∧
        ∀ s', try_dispute s t ≠ HRes.err s' RejectReason.noClientForTx) ∧
      (try_resolve s t ≠ HRes.panicked ∧
        ∀ s', try_resolve s t ≠ HRes.err s' RejectReason.noClientForTx) ∧
      (try_chargeback s t ≠ HRes.panicked ∧
        ∀ s', try_chargeback s t ≠ HRes.err s' RejectReason.noClientForTx)) := by
  constructor
  · intro s t s' hinv h
    rcases h with h | ⟨r, h⟩
    · unfold processTx at h
      split at h
      · rename_i htt; exact try_deposit_preserves_ledgerInv s t s' (Or.inl htt) hinv h
      · rename_i htt; exact try_withdrawal_preserves_ledgerInv s t s' (Or.inr htt) hinv h
      · exact try_dispute_preserves_ledgerInv s t s' hinv h
      · exact try_resolve_preserves_ledgerInv s t s' hinv h
      · exact try_chargeback_preserves_ledgerInv s t s' hinv h
      · exact HRes.noConfusion h
    · rw [processTx_err_eq s t s' r h]; exact hinv
  · intro s t hinv
    exact ⟨try_dispute_no_missing_client s t hinv,
      try_resolve_no_missing_client s t hinv,
      try_chargeback_no_missing_client s t hinv⟩

/-- A client whose `total_locks` is positive has every Deposit and
Withdrawal rejected (or, with a missing amount, panicked) — never
accepted. -/
theorem frozen_account_rejects (s : Store) (t : Transaction) (cd : ClientData)
    (hcd : findA s.clients t.client_id = some cd) (hl : 0 < cd.total_locks) :
    ∀ s'', try_deposit s t ≠ HRes.ok s'' ∧ try_withdrawal s t ≠ HRes.ok s'' := by
  intro s''
  constructor
  · intro h
    unfold try_deposit at h
    repeat' split at h
    all_goals first
      | exact HRes.noConfusion h
      | simp_all
  · intro h
    unfold try_withdrawal at h
    repeat' split at h
    all_goals first
      | exact HRes.noConfusion h
      | simp_all

/-- What a successful Chargeback does do: it leaves the ledger — hence the
referenced transaction's disputed flag — untouched and the client's
`total_locks` unchanged, so an account frozen before the Chargeback is
still frozen right after it and rejects Deposits and Withdrawals.  (The
freeze is nevertheless not permanent; see
`chargeback_freeze_not_permanent_cex`.) -/
theorem chargeback_keeps_account_frozen (s : Store) (t : Transaction) (s' : Store)
    (cd : ClientData)
    (h : try_chargeback s t = HRes.ok s')
    (hcd : findA s.clients t.client_id = some cd) :
    s'.transactions = s.transactions ∧
    (∃ cd', findA s'.clients t.client_id = some cd' ∧
      cd'.total_locks = cd.total_locks ∧
      (0 < cd.total_locks →
        ∀ t' s'', t'.client_id = t.client_id →
          try_deposit s' t' ≠ HRes.ok s'' ∧ try_withdrawal s' t' ≠ HRes.ok s'')) := by
  obtain ⟨te, hte⟩ : ∃ te, findA s.transactions t.tx_id = some te := by
    cases hte : findA s.transactions t.tx_id with
    | none => simp [try_chargeback, hte] at h
    | some te => exact ⟨te, rfl⟩
  obtain ⟨a, ha⟩ : ∃ a, te.amount = some a := by
    cases ha : te.amount with
    | none =>
      by_cases hd : te.is_disputed
      · by_cases hcm : te.client_id = t.client_id
        · simp [try_chargeback, hte, hd, hcm, hcd, ha] at h
        · simp [try_chargeback, hte, hd, hcm] at h
      · simp [try_chargeback, hte, hd] at h
    | some a => exact ⟨a, rfl⟩
  have hd : te.is_disputed = true := by
    by_contra hx
    rw [Bool.not_eq_true] at hx
    simp [try_chargeback, hte, hx] at h
  have hcm : te.client_id = t.client_id := by
    by_contra hx
    simp [try_chargeback, hte, hd, hx] at h
  simp only [try_chargeback, hte, hd, hcm, hcd, ha, Bool.not_true, Bool.false_eq_true,
    if_false, ne_eq, not_true_eq_false, ite_false, HRes.ok.injEq] at h
  subst h
  refine ⟨rfl, ⟨{ cd with held := cd.held - a, total := cd.total - a },
    by rw [findA_updateA, if_pos rfl, hcd, Option.map_some'], rfl, ?_⟩⟩
  intro hl t' s'' hcli
  exact frozen_account_rejects _ t'
    { cd with held := cd.held - a, total := cd.total - a }
    (by rw [hcli, findA_updateA, if_pos rfl, hcd, Option.map_some']) hl s''

/-- Claim C1 fails on the code: from the empty store, deposit 5 for client
1 and dispute it; the Chargeback then succeeds, but — because the
transaction is still marked disputed — a subsequent Resolve also succeeds,
brings `total_locks` from 1 back to 0, and a later deposit of 3 for the
same client is accepted.  This contradicts the permanent-freeze claim and
the comment at `try_chargeback` in the source ("their account is
permanently frozen"). -/
theorem chargeback_freeze_not_permanent_cex :
    processAll ⟨[], []⟩
        [⟨1, "deposit", 1, some 5, false⟩, ⟨1, "dispute", 1, none, false⟩] =
      some ⟨[(1, ⟨1, "deposit", 1, some 5, true⟩)], [(1, ⟨0, 5, 5, 1⟩)]⟩ ∧
    processTx ⟨[(1, ⟨1, "deposit", 1, some 5, true⟩)], [(1, ⟨0, 5, 5, 1⟩)]⟩
        ⟨1, "chargeback", 1, none, false⟩ =
      HRes.ok ⟨[(1, ⟨1, "deposit", 1, some 5, true⟩)], [(1, ⟨0, 0, 0, 1⟩)]⟩ ∧
    processTx ⟨[(1, ⟨1, "deposit", 1, some 5, true⟩)], [(1, ⟨0, 0, 0, 1⟩)]⟩
        ⟨1, "resolve", 1, none, false⟩ =
      HRes.ok ⟨[(1, ⟨1, "deposit", 1, some 5, false⟩)], [(1, ⟨5, -5, 0, 0⟩)]⟩ ∧
    processTx ⟨[(1, ⟨1, "deposit", 1, some 5, false⟩)], [(1, ⟨5, -5, 0, 0⟩)]⟩
        ⟨2, "deposit", 1, some 3, false⟩ =
      HRes.ok ⟨[(2, ⟨2, "deposit", 1, some 3, false⟩),
                (1, ⟨1, "deposit", 1, some 5, false⟩)],
               [(1, ⟨8, -5, 3, 0⟩)]⟩ := by
  refine ⟨?_, ?_, ?_, ?_⟩ <;>
    norm_num [processAll, processTx, try_deposit, try_dispute, try_resolve,
      try_chargeback, findA, updateA, insertA, containsA, u16Max]

/-- Claim C4 as stated fails at the saturation bound: for an account whose
`total_locks` is already `u16::MAX = 65535`, a successful Dispute
saturates the counter at 65535, so the following successful Resolve
leaves it at 65534 — not the pre-dispute value.  `available` and `held`
are restored, `lock_count` is not. -/
theorem dispute_resolve_roundtrip_cex :
    try_dispute ⟨[(1, ⟨1, "deposit", 1, some 5, false⟩)], [(1, ⟨0, 5, 5, 65535⟩)]⟩
        ⟨1, "dispute", 1, none, false⟩ =
      HRes.ok ⟨[(1, ⟨1, "deposit", 1, some 5, true⟩)], [(1, ⟨-5, 10, 5, 65535⟩)]⟩ ∧
    try_resolve ⟨[(1, ⟨1, "deposit", 1, some 5, true⟩)], [(1, ⟨-5, 10, 5, 65535⟩)]⟩
        ⟨1, "resolve", 1, none, false⟩ =
      HRes.ok ⟨[(1, ⟨1, "deposit", 1, some 5, false⟩)], [(1, ⟨0, 5, 5, 65534⟩)]⟩ ∧
    (findA (⟨[(1, ⟨1, "deposit", 1, some 5, false⟩)],
        [(1, ⟨0, 5, 5, 65534⟩)]⟩ : Store).clients 1).map ClientData.total_locks ≠
      (findA (⟨[(1, ⟨1, "deposit", 1, some 5, false⟩)],
        [(1, ⟨0, 5, 5, 65535⟩)]⟩ : Store).clients 1).map ClientData.total_locks := by
  refine ⟨?_, ?_, ?_⟩
  · norm_num [try_dispute, findA, updateA, u16Max]
  · norm_num [try_resolve, findA, updateA, u16Max]
  · decide

/-- Claim C4 (amended): for any account with `total_locks` strictly below
`u16::MAX` and any recorded transaction of that client not currently
disputed, a successful Dispute followed by a successful Resolve of the
same transaction restores the client's record exactly — `available`,
`held`, `total`, and `lock_count` — and returns the ledger entry to its
original undisputed state. -/
theorem dispute_resolve_roundtrip (s : Store) (d r : Transaction)
    (te : Transaction) (cd : ClientData) (a : ℚ)
    (hte : findA s.transactions d.tx_id = some te)
    (hnd : te.is_disputed = false)
    (hcm : te.client_id = d.client_id)
    (hcd : findA s.clients d.client_id = some cd)
    (ha : te.amount = some a)
    (hlk : cd.total_locks < u16Max)
    (hrid : r.tx_id = d.tx_id) (hrc : r.client_id = d.client_id) :
    ∃ s₁ s₂, try_dispute s d = HRes.ok s₁ ∧ try_resolve s₁ r = HRes.ok s₂ ∧
      findA s₂.clients d.client_id = some cd ∧
      findA s₂.transactions d.tx_id = some te := by
  refine ⟨⟨updateA d.tx_id (fun te => { te with is_disputed := true }) s.transactions,
      updateA d.client_id
        (fun cd => { cd with available := cd.available - a, held := cd.held + a,
                             total_locks := min (cd.total_locks + 1) u16Max }) s.clients⟩,
    ⟨updateA r.tx_id (fun te => { te with is_disputed := false })
        (updateA d.tx_id (fun te => { te with is_disputed := true }) s.transactions),
      updateA r.client_id
        (fun cd => { cd with available := cd.available + a, held := cd.held - a,
                             total_locks := cd.total_locks - 1 })
        (updateA d.client_id
          (fun cd => { cd with available := cd.available - a, held := cd.held + a,
                               total_locks := min (cd.total_locks + 1) u16Max }) s.clients)⟩,
    ?_, ?_, ?_, ?_⟩
  · simp only [try_dispute, hte, hnd, Bool.false_eq_true, if_false, hcm, ne_eq,
      not_true_eq_false, ite_false, hcd, ha]
  · have h1 : findA (updateA d.tx_id (fun te => { te with is_disputed := true })
        s.transactions) r.tx_id = some { te with is_disputed := true } := by
      rw [hrid, findA_updateA, if_pos rfl, hte, Option.map_some']
    have h2 : findA (updateA d.client_id
        (fun cd => { cd with available := cd.available - a, held := cd.held + a,
                             total_locks := min (cd.total_locks + 1) u16Max }) s.clients) d.client_id =
        some { cd with available := cd.available - a, held := cd.held + a,
                       total_locks := min (cd.total_locks + 1) u16Max } := by
      rw [findA_updateA, if_pos rfl, hcd, Option.map_some']
    simp only [try_resolve, h1, h2, hcm, hrc, ha, Bool.not_true, Bool.false_eq_true,
      if_false, ne_eq, not_true_eq_false, ite_false]
  · rw [hrc, findA_updateA, if_pos rfl, findA_updateA, if_pos rfl, hcd,
      Option.map_some', Option.map_some']
    obtain ⟨av, he, tot, lk⟩ := cd
    simp only [Option.some.injEq, ClientData.mk.injEq]
    refine ⟨by ring, by ring, trivial, ?_⟩
    simp only [u16Max] at hlk ⊢
    omega
  · rw [hrid, findA_updateA, if_pos rfl, findA_updateA, if_pos rfl, hte,
      Option.map_some', Option.map_some']
    obtain ⟨ti, tt, tc, tam, tdis⟩ := te
    simp only at hnd
    rw [hnd]

/-- Witness for `account_creation_only_by_deposit`: depositing 5 for the
unseen client 1 creates the account ⟨5, 0, 5, 0⟩. -/
theorem account_creation_only_by_deposit_witness :
    ∃ a, (⟨1, "deposit", 1, some 5, false⟩ : Transaction).amount = some a ∧
      findA (⟨[(1, ⟨1, "deposit", 1, some 5, false⟩)],
        [(1, ⟨5, 0, 5, 0⟩)]⟩ : Store).clients 1 = some ⟨a, 0, a, 0⟩ :=
  account_creation_only_by_deposit.2.1 ⟨[], []⟩ ⟨1, "deposit", 1, some 5, false⟩
    ⟨[(1, ⟨1, "deposit", 1, some 5, false⟩)], [(1, ⟨5, 0, 5, 0⟩)]⟩
    rfl rfl (by decide)

/-- Witness for `ledger_entries_wellformed`: with a well-formed one-entry
ledger, Dispute and Chargeback cannot panic. -/
theorem ledger_entries_wellformed_witness :
    try_dispute ⟨[(1, ⟨1, "deposit", 1, some 5, false⟩)], [(1, ⟨5, 0, 5, 0⟩)]⟩
      ⟨1, "dispute", 1, none, false⟩ ≠ HRes.panicked ∧
    try_chargeback ⟨[(1, ⟨1, "deposit", 1, some 5, false⟩)], [(1, ⟨5, 0, 5, 0⟩)]⟩
      ⟨1, "chargeback", 1, none, false⟩ ≠ HRes.panicked := by
  have hinv : LedgerInv
      ⟨[(1, ⟨1, "deposit", 1, some 5, false⟩)], [(1, ⟨5, 0, 5, 0⟩)]⟩ := by
    intro k te h
    simp only [findA] at h
    split at h
    · cases h
      exact ⟨Or.inl rfl, 5, rfl, by norm_num, by decide⟩
    · exact Option.noConfusion h
  exact ⟨(ledger_entries_wellformed.2 _ ⟨1, "dispute", 1, none, false⟩ hinv).1.1,
    (ledger_entries_wellformed.2 _ ⟨1, "chargeback", 1, none, false⟩ hinv).2.2.1⟩

/-- Witness for `chargeback_keeps_account_frozen`: right after the
chargeback of claim C1's scenario the account is still frozen, so a
deposit of 3 is not accepted. -/
theorem chargeback_keeps_account_frozen_witness :
    try_deposit ⟨[(1, ⟨1, "deposit", 1, some 5, true⟩)], [(1, ⟨0, 0, 0, 1⟩)]⟩
      ⟨2, "deposit", 1, some 3, false⟩ ≠ HRes.ok ⟨[], []⟩ := by
  obtain ⟨-, cd', hcd', hlk, hrej⟩ :=
    chargeback_keeps_account_frozen
      ⟨[(1, ⟨1, "deposit", 1, some 5, true⟩)], [(1, ⟨0, 5, 5, 1⟩)]⟩
      ⟨1, "chargeback", 1, none, false⟩
      ⟨[(1, ⟨1, "deposit", 1, some 5, true⟩)], [(1, ⟨0, 0, 0, 1⟩)]⟩
      ⟨0, 5, 5, 1⟩
      (by norm_num [try_chargeback, findA, updateA]) (by decide)
  exact (hrej (by decide) ⟨2, "deposit", 1, some 3, false⟩ ⟨[], []⟩ rfl).1

/-- Witness for `dispute_resolve_roundtrip`: disputing then resolving a
recorded deposit of 5 for client 1 restores the account ⟨5, 0, 5, 0⟩ and
the undisputed ledger entry. -/
theorem dispute_resolve_roundtrip_witness :
    ∃ s₁ s₂,
      try_dispute ⟨[(1, ⟨1, "deposit", 1, some 5, false⟩)], [(1, ⟨5, 0, 5, 0⟩)]⟩
          ⟨1, "dispute", 1, none, false⟩ = HRes.ok s₁ ∧
      try_resolve s₁ ⟨1, "resolve", 1, none, false⟩ = HRes.ok s₂ ∧
      findA s₂.clients 1 = some ⟨5, 0, 5, 0⟩ ∧
      findA s₂.transactions 1 = some ⟨1, "deposit", 1, some 5, false⟩ :=
  dispute_resolve_roundtrip
    ⟨[(1, ⟨1, "deposit", 1, some 5, false⟩)], [(1, ⟨5, 0, 5, 0⟩)]⟩
    ⟨1, "dispute", 1, none, false⟩ ⟨1, "resolve", 1, none, false⟩
    ⟨1, "deposit", 1, some 5, false⟩ ⟨5, 0, 5, 0⟩ 5
    (by decide) rfl rfl (by decide) rfl (by decide) rfl rfl
